import Mathlib

/-!
Shallow embedding of `walkabout/support.py`, a small library of EDA helper
functions over pandas Series/DataFrames.  Numeric values are embedded as
rationals (the concrete computations in the claims are exact), columns as
lists, and a DataFrame as an association list of named, dtype-tagged columns.
Non-finite float results (numpy division by zero yields `inf`/`-inf`/`nan`)
are embedded by the `FloatRes` type.
-/

namespace Walkabout

/-- Result of a numpy floating-point computation: either a finite (exact)
value or one of the non-finite IEEE results produced by division by zero. -/
inductive FloatRes where
  | fin : ℚ → FloatRes
  | posInf : FloatRes
  | negInf : FloatRes
  | nan : FloatRes
deriving DecidableEq

/-- IEEE-style division of exact operands: numpy float division returns
`a / b` when `b ≠ 0`, and `inf` / `-inf` / `nan` when `b = 0` according to
the sign of `a` (never an ordinary finite number). -/
def fdiv (a b : ℚ) : FloatRes :=
  if b ≠ 0 then .fin (a / b)
  else if 0 < a then .posInf
  else if a < 0 then .negInf
  else .nan

/-- The sorted copy of a column, as produced before quantile lookup. -/
def sortedOf (xs : List ℚ) : List ℚ :=
  List.insertionSort (· ≤ ·) xs

/-- Linear interpolation between order statistics of the (sorted) list `s`
at real position `h`: with `i = ⌊h⌋`, the value is
`s[i] + (h - i) * (s[i+1] - s[i])` (the upper neighbour defaulting to `s[i]`
at the top end).  This is the `interpolation='linear'` rule of
`numpy.percentile` / `pandas.Series.quantile`. -/
def interp (s : List ℚ) (h : ℚ) : ℚ :=
  let i : ℕ := (⌊h⌋).toNat
  let lo := s.getD i 0
  let hi := s.getD (i + 1) lo
  lo + (h - (i : ℚ)) * (hi - lo)

/-- `feature.quantile(p)` with pandas' default linear interpolation:
position `p * (n - 1)` into the sorted values, linear interpolation between
the two nearest ranked values. -/
def quantile (feature : List ℚ) (p : ℚ) : ℚ :=
  interp (sortedOf feature) (p * ((feature.length : ℚ) - 1))

/-- `Series.between(left, right, inclusive)` with the boolean `inclusive`
flag: inclusive bounds when `true`, strict bounds when `false`. -/
def seriesBetween (left right : ℚ) (inclusive : Bool) (v : ℚ) : Bool :=
  if inclusive then decide (left ≤ v ∧ v ≤ right)
  else decide (left < v ∧ v < right)

/-- `outlier_mask(feature, inclusive=True)`:
`q1 = feature.quantile(.25)`, `q3 = feature.quantile(.75)`, `iqr = q3 - q1`,
mask is `~feature.between(q1 - 1.5*iqr, q3 + 1.5*iqr, inclusive=inclusive)`. -/
def outlier_mask (feature : List ℚ) (inclusive : Bool := true) : List Bool :=
  let q1 := quantile feature (1/4)
  let q3 := quantile feature (3/4)
  let iqr := q3 - q1
  feature.map (fun v => !(seriesBetween (q1 - 3/2 * iqr) (q3 + 3/2 * iqr) inclusive v))

/-- The lower outlier bound `q1 - 1.5*iqr` computed by `outlier_mask`. -/
def loBound (feature : List ℚ) : ℚ :=
  quantile feature (1/4) - 3/2 * (quantile feature (3/4) - quantile feature (1/4))

/-- The upper outlier bound `q3 + 1.5*iqr` computed by `outlier_mask`. -/
def hiBound (feature : List ℚ) : ℚ :=
  quantile feature (3/4) + 3/2 * (quantile feature (3/4) - quantile feature (1/4))

/-- `trimean(feature)`: `(q1 + 2*q2 + q3) / 4` with `q2 = feature.median()`,
which is `feature.quantile(.5)`. -/
def trimean (feature : List ℚ) : ℚ :=
  let q1 := quantile feature (1/4)
  let q2 := quantile feature (1/2)
  let q3 := quantile feature (3/4)
  (q1 + 2 * q2 + q3) / 4

/-- `feature.mean()`. -/
def mean (feature : List ℚ) : ℚ :=
  feature.sum / (feature.length : ℚ)

/-- `feature.var()`: pandas sample variance, denominator `n - 1`. -/
def svar (feature : List ℚ) : ℚ :=
  (feature.map (fun x => (x - mean feature) ^ 2)).sum / ((feature.length : ℚ) - 1)

/-- `variance_coefficient(feature)`: `feature.var() / feature.mean()`.
With fewer than two values pandas' sample variance is `nan`, so the quotient
is `nan`; otherwise the quotient is the IEEE division of the two exact
values. -/
def variance_coefficient (feature : List ℚ) : FloatRes :=
  if feature.length < 2 then .nan else fdiv (svar feature) (mean feature)

/-- A Python scalar as it appears in the flattening helper: an int or a
string (strings are scalars for `_flatten_list`, never flattened). -/
inductive PyVal where
  | int : ℤ → PyVal
  | str : String → PyVal
deriving DecidableEq

/-- `str(item)` for the scalars above. -/
def pyStr : PyVal → String
  | .int n => toString n
  | .str s => s

/-- A possibly nested Python sequence: atoms, and list/tuple-like nodes
(both `list` and `tuple` match `isinstance(item, (list, tuple))`). -/
inductive Nested where
  | atom : PyVal → Nested
  | seq : List Nested → Nested

/-- `_flatten_list(l)`: the loop appends non-sequence items and splices the
recursive flattening of list/tuple items, depth-first, left to right. -/
def flatten_list : List Nested → List PyVal
  | [] => []
  | .atom v :: rest => v :: flatten_list rest
  | .seq l :: rest => flatten_list l ++ flatten_list rest

/-- `list_to_string(l, separator=', ')`:
`separator.join(str(item) for item in _flatten_list(l))`. -/
def list_to_string (l : List Nested) (separator : String := ", ") : String :=
  String.intercalate separator ((flatten_list l).map pyStr)

/-- Characters stripped by Python's `str.strip()`. -/
def isPySpace (c : Char) : Bool :=
  c = ' ' || c = '\t' || c = '\n' || c = '\r' || c = '\x0b' || c = '\x0c'

/-- `str.strip()`: drop leading and trailing whitespace characters. -/
def pyStrip (s : String) : String :=
  ⟨((s.data.dropWhile isPySpace).reverse.dropWhile isPySpace).reverse⟩

/-- A cell value of a DataFrame: a (finite) number, a string, the float
infinity, or the null marker (`NaN`/`None`). -/
inductive Value where
  | num : ℚ → Value
  | str : String → Value
  | inf : Value
  | null : Value
deriving DecidableEq

/-- The dtype of a column, as far as `select_dtypes(exclude='number')`
distinguishes: numeric columns versus object (textual) columns. -/
inductive Dtype where
  | number : Dtype
  | object : Dtype
deriving DecidableEq

/-- A pandas column: its dtype together with its ordered values. -/
structure Column where
  dtype : Dtype
  vals : List Value
deriving DecidableEq

/-- A DataFrame: named columns in order. -/
structure DataFrame where
  cols : List (String × Column)
deriving DecidableEq

/-- One cell under `Series.str.strip()`: a string is stripped, and any
non-string element (a number, an infinity, or a null) is mapped to the null
marker, as the pandas `.str` accessor does. -/
def stripCell : Value → Value
  | .str s => .str (pyStrip s)
  | .num _ => .null
  | .inf => .null
  | .null => .null

/-- `strip_columns(df)`: copy the frame, then for every column outside
`select_dtypes('number')` replace it by `df[col].str.strip()`; numeric
columns are left as-is. -/
def strip_columns (df : DataFrame) : DataFrame :=
  ⟨df.cols.map (fun nc =>
    (nc.1, if nc.2.dtype = Dtype.number then nc.2
           else ⟨nc.2.dtype, nc.2.vals.map stripCell⟩))⟩

/-- The module-level `PLACEHOLDERS` list:
`[-1, -999, -9999, 'None', 'none', 'missing', 'Missing', 'Null', 'null',
'?', 'inf', np.inf]`. -/
def PLACEHOLDERS : List Value :=
  [.num (-1), .num (-999), .num (-9999), .str "None", .str "none",
   .str "missing", .str "Missing", .str "Null", .str "null", .str "?",
   .str "inf", .inf]

/-- One cell under `df.replace(placeholders, np.NaN)`: a value equal to a
member of `placeholders` becomes the null marker, all others are kept. -/
def replaceCell (placeholders : List Value) (v : Value) : Value :=
  if v ∈ placeholders then .null else v

/-- `placehold_to_nan` on a single column (Series). -/
def placehold_to_nan_series (s : List Value)
    (placeholders : List Value := PLACEHOLDERS) : List Value :=
  s.map (replaceCell placeholders)

/-- `placehold_to_nan(df, placeholders=PLACEHOLDERS)` on a DataFrame:
`df.replace(placeholders, np.NaN)`. -/
def placehold_to_nan (df : DataFrame)
    (placeholders : List Value := PLACEHOLDERS) : DataFrame :=
  ⟨df.cols.map (fun nc => (nc.1, ⟨nc.2.dtype, placehold_to_nan_series nc.2.vals placeholders⟩))⟩

/-- A heap of DataFrame objects: Python object identity is a reference
(an index) into the store; `df.copy()` allocates a fresh object. -/
structure Store where
  dfs : List DataFrame
deriving DecidableEq

/-- Dereference a DataFrame object. -/
def readDF (σ : Store) (r : ℕ) : DataFrame :=
  σ.dfs.getD r ⟨[]⟩

/-- Allocate a new DataFrame object, returning the new store and the fresh
reference. -/
def allocDF (σ : Store) (d : DataFrame) : Store × ℕ :=
  (⟨σ.dfs ++ [d]⟩, σ.dfs.length)

/-- In-place mutation of the object behind a reference (`df[col] = ...`). -/
def writeDF (σ : Store) (r : ℕ) (d : DataFrame) : Store :=
  ⟨σ.dfs.set r d⟩

/-- `strip_columns` as it acts on the object store: `df = df.copy()`
allocates a fresh copy, the column-assignment loop then mutates only that
copy, and the copy's reference is returned. -/
def strip_columns_op (σ : Store) (r : ℕ) : Store × ℕ :=
  let copy := allocDF σ (readDF σ r)
  (writeDF copy.1 copy.2 (strip_columns (readDF copy.1 copy.2)), copy.2)

/-- `placehold_to_nan` as it acts on the object store: `df.replace(...)`
(with `inplace` left at its default `False`) builds a new object and returns
its reference; the input object is not written. -/
def placehold_to_nan_op (σ : Store) (r : ℕ)
    (placeholders : List Value := PLACEHOLDERS) : Store × ℕ :=
  allocDF σ (placehold_to_nan (readDF σ r) placeholders)

/-- A heap of Series (numeric column) objects, for the read-only
statistics. -/
structure SeriesStore where
  series : List (List ℚ)
deriving DecidableEq

/-- Dereference a Series object. -/
def readSeries (τ : SeriesStore) (k : ℕ) : List ℚ :=
  τ.series.getD k []

/-- `outlier_mask` as it acts on the store: it only reads its argument. -/
def outlier_mask_op (τ : SeriesStore) (k : ℕ) (inclusive : Bool) :
    SeriesStore × List Bool :=
  (τ, outlier_mask (readSeries τ k) inclusive)

/-- `trimean` as it acts on the store: it only reads its argument. -/
def trimean_op (τ : SeriesStore) (k : ℕ) : SeriesStore × ℚ :=
  (τ, trimean (readSeries τ k))

/-- `variance_coefficient` as it acts on the store: it only reads its
argument. -/
def variance_coefficient_op (τ : SeriesStore) (k : ℕ) : SeriesStore × FloatRes :=
  (τ, variance_coefficient (readSeries τ k))

/-! Basic facts about the sorted copy and linear interpolation. -/

theorem sortedOf_length (xs : List ℚ) : (sortedOf xs).length = xs.length :=
  (List.perm_insertionSort _ xs).length_eq

theorem sortedOf_sorted (xs : List ℚ) : (sortedOf xs).Sorted (· ≤ ·) :=
  List.sorted_insertionSort _ xs

theorem sortedOf_mem {xs : List ℚ} {a : ℚ} (h : a ∈ sortedOf xs) : a ∈ xs :=
  (List.perm_insertionSort _ xs).mem_iff.mp h

theorem sorted_getD_mono {s : List ℚ} (hs : s.Sorted (· ≤ ·)) {i j : ℕ}
    (hij : i ≤ j) (hj : j < s.length) : s.getD i 0 ≤ s.getD j 0 := by
  have hi : i < s.length := Nat.lt_of_le_of_lt hij hj
  rw [List.getD_eq_getElem _ _ hi, List.getD_eq_getElem _ _ hj]
  have h := hs.rel_get_of_le (a := ⟨i, hi⟩) (b := ⟨j, hj⟩) (Fin.mk_le_mk.mpr hij)
  simpa using h

theorem getD_in_bounds_eq {s : List ℚ} {i : ℕ} (h : i < s.length) (d e : ℚ) :
    s.getD i d = s.getD i e := by
  rw [List.getD_eq_getElem _ _ h, List.getD_eq_getElem _ _ h]

theorem toNat_floor_cast_le {h : ℚ} (h0 : 0 ≤ h) : (((⌊h⌋).toNat : ℕ) : ℚ) ≤ h := by
  have h2 : (((⌊h⌋).toNat : ℕ) : ℤ) = ⌊h⌋ := Int.toNat_of_nonneg (Int.floor_nonneg.mpr h0)
  have h3 := Int.floor_le h
  rw [← h2] at h3
  exact_mod_cast h3

theorem lt_toNat_floor_add_one {h : ℚ} (h0 : 0 ≤ h) : h < (((⌊h⌋).toNat : ℕ) : ℚ) + 1 := by
  have h2 : (((⌊h⌋).toNat : ℕ) : ℤ) = ⌊h⌋ := Int.toNat_of_nonneg (Int.floor_nonneg.mpr h0)
  have h3 := Int.lt_floor_add_one h
  rw [← h2] at h3
  exact_mod_cast h3

theorem interp_eq (s : List ℚ) (h : ℚ) :
    interp s h = s.getD (⌊h⌋).toNat 0 +
      (h - (((⌊h⌋).toNat : ℕ) : ℚ)) *
        (s.getD ((⌊h⌋).toNat + 1) (s.getD (⌊h⌋).toNat 0) - s.getD (⌊h⌋).toNat 0) := rfl

theorem getD_succ_ge {s : List ℚ} (hs : s.Sorted (· ≤ ·)) (i : ℕ) :
    s.getD i 0 ≤ s.getD (i + 1) (s.getD i 0) := by
  by_cases hb : i + 1 < s.length
  · rw [getD_in_bounds_eq hb _ 0]
    exact sorted_getD_mono hs (Nat.le_succ i) hb
  · rw [List.getD_eq_default _ _ (Nat.le_of_not_lt hb)]

theorem interp_lo_le {s : List ℚ} (hs : s.Sorted (· ≤ ·)) {h : ℚ} (h0 : 0 ≤ h)
    (hlen : (⌊h⌋).toNat < s.length) : s.getD (⌊h⌋).toNat 0 ≤ interp s h := by
  rw [interp_eq]
  have hfr : 0 ≤ h - (((⌊h⌋).toNat : ℕ) : ℚ) := sub_nonneg.mpr (toNat_floor_cast_le h0)
  have hlh := getD_succ_ge hs (⌊h⌋).toNat
  nlinarith [mul_nonneg hfr (sub_nonneg.mpr hlh)]

theorem interp_le_hi {s : List ℚ} (hs : s.Sorted (· ≤ ·)) {h : ℚ} (h0 : 0 ≤ h)
    (hlen : (⌊h⌋).toNat < s.length) :
    interp s h ≤ s.getD ((⌊h⌋).toNat + 1) (s.getD (⌊h⌋).toNat 0) := by
  rw [interp_eq]
  have hfr : h - (((⌊h⌋).toNat : ℕ) : ℚ) ≤ 1 := by
    have := lt_toNat_floor_add_one h0
    linarith
  have hlh := getD_succ_ge hs (⌊h⌋).toNat
  have hmul := mul_le_mul_of_nonneg_right hfr (sub_nonneg.mpr hlh)
  linarith

theorem interp_mono {s : List ℚ} (hs : s.Sorted (· ≤ ·)) {g k : ℚ}
    (h0 : 0 ≤ g) (hgk : g ≤ k) (hub : k ≤ (s.length : ℚ) - 1) :
    interp s g ≤ interp s k := by
  have hk0 : 0 ≤ k := le_trans h0 hgk
  have hilen2 : (⌊k⌋).toNat < s.length := by
    have h1 := toNat_floor_cast_le hk0
    have h3 : (((⌊k⌋).toNat : ℕ) : ℚ) + 1 ≤ (s.length : ℚ) := by linarith
    exact_mod_cast h3
  have hmono : (⌊g⌋).toNat ≤ (⌊k⌋).toNat := by
    have := Int.floor_le_floor hgk
    omega
  have hilen1 : (⌊g⌋).toNat < s.length := Nat.lt_of_le_of_lt hmono hilen2
  rcases Nat.lt_or_ge (⌊g⌋).toNat (⌊k⌋).toNat with hlt | hge
  · have step1 := interp_le_hi hs h0 hilen1
    have hb1 : (⌊g⌋).toNat + 1 < s.length := Nat.lt_of_le_of_lt hlt hilen2
    have step2 : s.getD ((⌊g⌋).toNat + 1) (s.getD (⌊g⌋).toNat 0) ≤ s.getD (⌊k⌋).toNat 0 := by
      rw [getD_in_bounds_eq hb1 _ 0]
      exact sorted_getD_mono hs hlt hilen2
    have step3 := interp_lo_le hs hk0 hilen2
    linarith
  · have heq : (⌊g⌋).toNat = (⌊k⌋).toNat := Nat.le_antisymm hmono hge
    rw [interp_eq, interp_eq, ← heq]
    have hlh := getD_succ_ge hs (⌊g⌋).toNat
    have hd : g - (((⌊g⌋).toNat : ℕ) : ℚ) ≤ k - (((⌊g⌋).toNat : ℕ) : ℚ) := by linarith
    have hmul := mul_le_mul_of_nonneg_right hd (sub_nonneg.mpr hlh)
    linarith

theorem quantile_mono (xs : List ℚ) (hne : xs ≠ []) {p q : ℚ}
    (hp0 : 0 ≤ p) (hpq : p ≤ q) (hq1 : q ≤ 1) : quantile xs p ≤ quantile xs q := by
  have hlen : 0 < xs.length := List.length_pos.mpr hne
  have hc : (0 : ℚ) ≤ (xs.length : ℚ) - 1 := by
    have h1 : (1 : ℚ) ≤ (xs.length : ℚ) := by exact_mod_cast hlen
    linarith
  unfold quantile
  apply interp_mono (sortedOf_sorted xs)
  · exact mul_nonneg hp0 hc
  · exact mul_le_mul_of_nonneg_right hpq hc
  · rw [sortedOf_length]
    have h2 := mul_le_mul_of_nonneg_right hq1 hc
    linarith

theorem q1_le_q3 (xs : List ℚ) (hne : xs ≠ []) :
    quantile xs (1/4) ≤ quantile xs (3/4) :=
  quantile_mono xs hne (by norm_num) (by norm_num) (by norm_num)

theorem quantile_const {xs : List ℚ} {c : ℚ} (hne : xs ≠ []) (hall : ∀ x ∈ xs, x = c)
    {p : ℚ} (hp0 : 0 ≤ p) (hp1 : p ≤ 1) : quantile xs p = c := by
  have hlen : 0 < xs.length := List.length_pos.mpr hne
  have hc : (0 : ℚ) ≤ (xs.length : ℚ) - 1 := by
    have h1 : (1 : ℚ) ≤ (xs.length : ℚ) := by exact_mod_cast hlen
    linarith
  have h0 : 0 ≤ p * ((xs.length : ℚ) - 1) := mul_nonneg hp0 hc
  have hub : p * ((xs.length : ℚ) - 1) ≤ (xs.length : ℚ) - 1 := by
    have h2 := mul_le_mul_of_nonneg_right hp1 hc
    linarith
  have htlen : (⌊p * ((xs.length : ℚ) - 1)⌋).toNat < (sortedOf xs).length := by
    rw [sortedOf_length]
    have h1 := toNat_floor_cast_le h0
    have h3 : (((⌊p * ((xs.length : ℚ) - 1)⌋).toNat : ℕ) : ℚ) + 1 ≤ (xs.length : ℚ) := by
      linarith
    exact_mod_cast h3
  have hallC : ∀ x ∈ sortedOf xs, x = c := fun x hx => hall x (sortedOf_mem hx)
  have hlo : (sortedOf xs).getD (⌊p * ((xs.length : ℚ) - 1)⌋).toNat 0 = c := by
    rw [List.getD_eq_getElem _ _ htlen]
    exact hallC _ (List.getElem_mem _)
  have hhi : (sortedOf xs).getD ((⌊p * ((xs.length : ℚ) - 1)⌋).toNat + 1)
      ((sortedOf xs).getD (⌊p * ((xs.length : ℚ) - 1)⌋).toNat 0) = c := by
    by_cases hb : (⌊p * ((xs.length : ℚ) - 1)⌋).toNat + 1 < (sortedOf xs).length
    · rw [List.getD_eq_getElem _ _ hb]
      exact hallC _ (List.getElem_mem _)
    · rw [List.getD_eq_default _ _ (Nat.le_of_not_lt hb)]
      exact hlo
  unfold quantile
  rw [interp_eq, hhi, hlo]
  ring

/-! Facts about the outlier mask. -/

theorem outlier_mask_eq_map (feature : List ℚ) (inclusive : Bool) :
    outlier_mask feature inclusive =
      feature.map
        (fun v => !(seriesBetween (loBound feature) (hiBound feature) inclusive v)) := rfl

theorem loBound_le_hiBound (feature : List ℚ) (hne : feature ≠ []) :
    loBound feature ≤ hiBound feature := by
  have h := q1_le_q3 feature hne
  unfold loBound hiBound
  linarith

theorem seriesBetween_boundary {lo hi : ℚ} (hlb : lo ≤ hi) (inclusive : Bool) {v : ℚ}
    (hv : v = lo ∨ v = hi) :
    seriesBetween lo hi inclusive v = inclusive := by
  rcases hv with hb | hb <;> subst hb <;> cases inclusive <;>
    simp [seriesBetween, lt_irrefl, hlb]

/-! ## Claim theorems -/

/-- Claim C1: for every non-empty numeric column, `outlier_mask` returns a
boolean mask of the same length as the input, and at any position whose
value equals the computed lower bound `q1 - 1.5*iqr` or upper bound
`q3 + 1.5*iqr`, the mask entry is `False` when `inclusive=True` and `True`
when `inclusive=False` (i.e. `!inclusive`). -/
theorem outlier_mask_length_and_boundary (feature : List ℚ) (inclusive : Bool)
    (hne : feature ≠ []) :
    (outlier_mask feature inclusive).length = feature.length ∧
    ∀ i : ℕ, i < feature.length →
      (feature.getD i 0 = loBound feature ∨ feature.getD i 0 = hiBound feature) →
      (outlier_mask feature inclusive).getD i false = !inclusive ∧
      (outlier_mask feature inclusive).getD i true = !inclusive := by
  refine ⟨by rw [outlier_mask_eq_map]; exact List.length_map _ _, ?_⟩
  intro i hi hbd
  have hlb := loBound_le_hiBound feature hne
  rw [List.getD_eq_getElem _ _ hi] at hbd
  have key : ∀ d : Bool, (outlier_mask feature inclusive).getD i d = !inclusive := by
    intro d
    have him : i < (feature.map (fun v =>
        !(seriesBetween (loBound feature) (hiBound feature) inclusive v))).length := by
      rw [List.length_map]
      exact hi
    rw [outlier_mask_eq_map, List.getD_eq_getElem _ _ him, List.getElem_map,
      seriesBetween_boundary hlb inclusive hbd]
  exact ⟨key false, key true⟩

/-- Claim C1 witness: on the column `[5, 5]` both bounds equal `5`, the
value at position `0` sits exactly on the bound, and the mask entry is
`False` for `inclusive=True` and `True` for `inclusive=False`. -/
theorem outlier_mask_length_and_boundary_witness :
    ([5, 5] : List ℚ) ≠ [] ∧
    (outlier_mask ([5, 5] : List ℚ) true).length = 2 ∧
    (outlier_mask ([5, 5] : List ℚ) false).length = 2 ∧
    (outlier_mask ([5, 5] : List ℚ) true).getD 0 false = false ∧
    (outlier_mask ([5, 5] : List ℚ) false).getD 0 false = true := by
  have hne : ([5, 5] : List ℚ) ≠ [] := by simp
  have hbd : ([5, 5] : List ℚ).getD 0 0 = loBound [5, 5] ∨
      ([5, 5] : List ℚ).getD 0 0 = hiBound [5, 5] := by
    left
    norm_num [List.getD, loBound, quantile, interp, sortedOf, List.insertionSort,
      List.orderedInsert]
  have h1 := outlier_mask_length_and_boundary [5, 5] true hne
  have h2 := outlier_mask_length_and_boundary [5, 5] false hne
  refine ⟨hne, by simpa using h1.1, by simpa using h2.1, ?_, ?_⟩
  · simpa using (h1.2 0 (by norm_num) hbd).1
  · simpa using (h2.2 0 (by norm_num) hbd).1

/-- Claim C2 counterexample: on `[1,2,3,4,5,6,7,8,9,10,100]` the
linear-interpolation quantiles computed by the code are `q1 = 3.5` and
`q3 = 8.5`, not `q1 = 3` and `q3 = 8`, and the bounds are `-4` and `16`,
not `-4.5` and `15.5`. -/
theorem outlier_mask_example_counterexample :
    quantile [1, 2, 3, 4, 5, 6, 7, 8, 9, 10, 100] (1/4) = 7/2 ∧ (7/2 : ℚ) ≠ 3 ∧
    quantile [1, 2, 3, 4, 5, 6, 7, 8, 9, 10, 100] (3/4) = 17/2 ∧ (17/2 : ℚ) ≠ 8 ∧
    loBound [1, 2, 3, 4, 5, 6, 7, 8, 9, 10, 100] = -4 ∧ ((-4 : ℚ) ≠ -9/2) ∧
    hiBound [1, 2, 3, 4, 5, 6, 7, 8, 9, 10, 100] = 16 ∧ ((16 : ℚ) ≠ 31/2) := by
  norm_num [quantile, loBound, hiBound, interp, sortedOf, List.insertionSort,
    List.orderedInsert, List.getD, (show Int.toNat 2 = 2 from rfl),
    (show Int.toNat 7 = 7 from rfl)]

/-- Claim C2 amended: for `[1,2,3,4,5,6,7,8,9,10,100]`, the
linear-interpolation quantiles are `q1 = 3.5` and `q3 = 8.5`, so `iqr = 5`
and the bounds are `[-4, 16]`, and `outlier_mask` with `inclusive=True`
returns a mask that is `True` exactly at the position of `100` and `False`
everywhere else. -/
theorem outlier_mask_example_amended :
    quantile [1, 2, 3, 4, 5, 6, 7, 8, 9, 10, 100] (1/4) = 7/2 ∧
    quantile [1, 2, 3, 4, 5, 6, 7, 8, 9, 10, 100] (3/4) = 17/2 ∧
    quantile [1, 2, 3, 4, 5, 6, 7, 8, 9, 10, 100] (3/4) -
      quantile [1, 2, 3, 4, 5, 6, 7, 8, 9, 10, 100] (1/4) = 5 ∧
    loBound [1, 2, 3, 4, 5, 6, 7, 8, 9, 10, 100] = -4 ∧
    hiBound [1, 2, 3, 4, 5, 6, 7, 8, 9, 10, 100] = 16 ∧
    outlier_mask [1, 2, 3, 4, 5, 6, 7, 8, 9, 10, 100] true =
      [false, false, false, false, false, false, false, false, false, false, true] := by
  norm_num [quantile, loBound, hiBound, outlier_mask, seriesBetween, interp, sortedOf,
    List.insertionSort, List.orderedInsert, List.getD, (show Int.toNat 2 = 2 from rfl),
    (show Int.toNat 7 = 7 from rfl)]

/-- Claim C10: on a non-empty column whose values are all equal, the
interquartile range is zero, both outlier bounds equal the common value,
and the mask is all-`False` for `inclusive=True` and all-`True` for
`inclusive=False`. -/
theorem outlier_mask_constant_column (feature : List ℚ) (c : ℚ) (hne : feature ≠ [])
    (hall : ∀ x ∈ feature, x = c) :
    quantile feature (3/4) - quantile feature (1/4) = 0 ∧
    loBound feature = c ∧ hiBound feature = c ∧
    outlier_mask feature true = List.replicate feature.length false ∧
    outlier_mask feature false = List.replicate feature.length true := by
  have hq1 : quantile feature (1/4) = c := quantile_const hne hall (by norm_num) (by norm_num)
  have hq3 : quantile feature (3/4) = c := quantile_const hne hall (by norm_num) (by norm_num)
  have hlo : loBound feature = c := by
    unfold loBound
    rw [hq1, hq3]
    ring
  have hhi : hiBound feature = c := by
    unfold hiBound
    rw [hq1, hq3]
    ring
  refine ⟨by rw [hq1, hq3]; ring, hlo, hhi, ?_, ?_⟩
  · rw [outlier_mask_eq_map]
    refine List.eq_replicate_iff.mpr ⟨List.length_map _ _, fun b hb => ?_⟩
    rcases List.mem_map.mp hb with ⟨x, hx, rfl⟩
    rw [hall x hx, hlo, hhi]
    simp [seriesBetween]
  · rw [outlier_mask_eq_map]
    refine List.eq_replicate_iff.mpr ⟨List.length_map _ _, fun b hb => ?_⟩
    rcases List.mem_map.mp hb with ⟨x, hx, rfl⟩
    rw [hall x hx, hlo, hhi]
    simp [seriesBetween, lt_irrefl]

/-- Claim C10 witness: the constant column `[7, 7, 7]` has zero
interquartile range, bounds `7`, an all-`False` inclusive mask and an
all-`True` strict mask. -/
theorem outlier_mask_constant_column_witness :
    ([7, 7, 7] : List ℚ) ≠ [] ∧ (∀ x ∈ ([7, 7, 7] : List ℚ), x = 7) ∧
    loBound ([7, 7, 7] : List ℚ) = 7 ∧ hiBound ([7, 7, 7] : List ℚ) = 7 ∧
    outlier_mask ([7, 7, 7] : List ℚ) true = [false, false, false] ∧
    outlier_mask ([7, 7, 7] : List ℚ) false = [true, true, true] := by
  have hall : ∀ x ∈ ([7, 7, 7] : List ℚ), x = 7 := by
    intro x hx
    rcases (by simpa using hx : x = 7 ∨ x = 7 ∨ x = 7) with h | h | h <;> exact h
  have h := outlier_mask_constant_column [7, 7, 7] 7 (by simp) hall
  refine ⟨by simp, hall, h.2.1, h.2.2.1, ?_, ?_⟩
  · rw [h.2.2.2.1]
    rfl
  · rw [h.2.2.2.2]
    rfl

/-- Claim C3 counterexample: `strip_columns` does not leave non-string
values in non-numeric columns unchanged — a numeric value `5` embedded in an
object column is mapped to the null marker by `.str.strip()`. -/
theorem strip_columns_counterexample :
    strip_columns ⟨[("a", ⟨Dtype.object, [Value.num 5]⟩)]⟩
      = ⟨[("a", ⟨Dtype.object, [Value.null]⟩)]⟩ ∧
    Value.null ≠ Value.num 5 := by
  refine ⟨rfl, ?_⟩
  intro h
  cases h

/-- Claim C3 amended: `strip_columns` keeps every numeric column as-is and,
in every non-numeric column, replaces each string value by the value with
leading and trailing whitespace stripped, keeps nulls null, and maps every
other non-string value (numbers, infinities) to the null marker; no value
raises an error. -/
theorem strip_columns_spec (df : DataFrame) :
    (strip_columns df).cols.length = df.cols.length ∧
    (∀ i : ℕ, i < df.cols.length →
      (strip_columns df).cols.getD i ("", ⟨Dtype.number, []⟩) =
        ((df.cols.getD i ("", ⟨Dtype.number, []⟩)).1,
          if (df.cols.getD i ("", ⟨Dtype.number, []⟩)).2.dtype = Dtype.number
          then (df.cols.getD i ("", ⟨Dtype.number, []⟩)).2
          else ⟨(df.cols.getD i ("", ⟨Dtype.number, []⟩)).2.dtype,
                (df.cols.getD i ("", ⟨Dtype.number, []⟩)).2.vals.map stripCell⟩)) ∧
    (∀ s, stripCell (.str s) = .str (pyStrip s)) ∧
    stripCell .null = .null ∧
    (∀ q, stripCell (.num q) = .null) ∧
    stripCell .inf = .null := by
  refine ⟨List.length_map _ _, ?_, fun s => rfl, rfl, fun q => rfl, rfl⟩
  intro i hi
  have hi2 : i < (strip_columns df).cols.length := by
    simpa [strip_columns] using hi
  rw [List.getD_eq_getElem _ _ hi2, List.getD_eq_getElem _ _ hi]
  show (df.cols.map _)[i] = _
  rw [List.getElem_map]

/-- Claim C3 witness: a mixed object column `[5, null, " x "]` maps to
`[null, null, "x"]`, and a numeric column is untouched. -/
theorem strip_columns_spec_witness :
    (strip_columns ⟨[("a", ⟨Dtype.object, [Value.num 5, Value.null, Value.str " x "]⟩),
        ("b", ⟨Dtype.number, [Value.num 3]⟩)]⟩).cols.getD 0 ("", ⟨Dtype.number, []⟩)
      = ("a", ⟨Dtype.object, [Value.null, Value.null, Value.str "x"]⟩) ∧
    (strip_columns ⟨[("a", ⟨Dtype.object, [Value.num 5, Value.null, Value.str " x "]⟩),
        ("b", ⟨Dtype.number, [Value.num 3]⟩)]⟩).cols.getD 1 ("", ⟨Dtype.number, []⟩)
      = ("b", ⟨Dtype.number, [Value.num 3]⟩) := by
  have h := strip_columns_spec ⟨[("a", ⟨Dtype.object, [Value.num 5, Value.null, Value.str " x "]⟩),
    ("b", ⟨Dtype.number, [Value.num 3]⟩)]⟩
  have h0 := h.2.1 0 (by norm_num)
  have h1 := h.2.1 1 (by norm_num)
  rw [h0, h1]
  exact ⟨rfl, rfl⟩

/-- Claim C4: `placehold_to_nan` called without an explicit `placeholders`
argument uses exactly the default set `{-1, -999, -9999, "None", "none",
"missing", "Missing", "Null", "null", "?", "inf", inf}`: every element equal
to a member of that set becomes the null marker and every other element is
unchanged, on a Series and on every column of a DataFrame; in particular
the column `[-1, "ok", "none", 5]` maps to `[null, "ok", null, 5]`. -/
theorem placehold_to_nan_default_spec :
    (∀ s : List Value, placehold_to_nan_series s =
      s.map (fun v => if v ∈ ([.num (-1), .num (-999), .num (-9999), .str "None",
          .str "none", .str "missing", .str "Missing", .str "Null", .str "null",
          .str "?", .str "inf", .inf] : List Value) then Value.null else v)) ∧
    (∀ df : DataFrame, placehold_to_nan df =
      ⟨df.cols.map (fun nc => (nc.1, ⟨nc.2.dtype,
        nc.2.vals.map (fun v => if v ∈ ([.num (-1), .num (-999), .num (-9999),
          .str "None", .str "none", .str "missing", .str "Missing", .str "Null",
          .str "null", .str "?", .str "inf", .inf] : List Value)
          then Value.null else v)⟩))⟩) ∧
    placehold_to_nan_series [.num (-1), .str "ok", .str "none", .num 5]
      = [.null, .str "ok", .null, .num 5] :=
  ⟨fun s => rfl, fun df => rfl, rfl⟩

/-- Claim C5: `trimean` computes `(q1 + 2*q2 + q3) / 4` where `q2` is the
median, i.e. the `0.5` quantile under the same interpolated-quantile rule;
in particular `trimean([1,2,3,4,5]) = 3`. -/
theorem trimean_spec :
    (∀ feature : List ℚ, trimean feature =
      (quantile feature (1/4) + 2 * quantile feature (1/2) + quantile feature (3/4)) / 4) ∧
    trimean [1, 2, 3, 4, 5] = 3 := by
  refine ⟨fun feature => rfl, ?_⟩
  norm_num [trimean, quantile, interp, sortedOf, List.insertionSort, List.orderedInsert,
    List.getD, (show Int.toNat 2 = 2 from rfl), (show Int.toNat 3 = 3 from rfl)]

/-- Claim C6: on a column with at least two elements and nonzero mean,
`variance_coefficient` is the sample variance (denominator `n-1`) divided by
the mean, as a finite value. -/
theorem variance_coefficient_spec (feature : List ℚ) (h2 : 2 ≤ feature.length)
    (hm : mean feature ≠ 0) :
    variance_coefficient feature = .fin (svar feature / mean feature) := by
  unfold variance_coefficient
  rw [if_neg (Nat.not_lt.mpr h2)]
  unfold fdiv
  rw [if_pos hm]

/-- Claim C6 witness: `variance_coefficient([2,4,4,4,5,5,7,9])` equals
`(32/7) / 5 = 32/35`. -/
theorem variance_coefficient_spec_witness :
    2 ≤ ([2, 4, 4, 4, 5, 5, 7, 9] : List ℚ).length ∧
    mean ([2, 4, 4, 4, 5, 5, 7, 9] : List ℚ) ≠ 0 ∧
    svar ([2, 4, 4, 4, 5, 5, 7, 9] : List ℚ) = 32/7 ∧
    variance_coefficient [2, 4, 4, 4, 5, 5, 7, 9] = .fin (32/35) := by
  have hm : mean ([2, 4, 4, 4, 5, 5, 7, 9] : List ℚ) = 5 := by norm_num [mean]
  have hm0 : mean ([2, 4, 4, 4, 5, 5, 7, 9] : List ℚ) ≠ 0 := by
    rw [hm]
    norm_num
  have hv : svar ([2, 4, 4, 4, 5, 5, 7, 9] : List ℚ) = 32/7 := by
    norm_num [svar, mean]
  refine ⟨by norm_num, hm0, hv, ?_⟩
  rw [variance_coefficient_spec _ (by norm_num) hm0, hv, hm]
  norm_num

/-- Claim C7: on a column whose mean is zero, `variance_coefficient` never
returns an ordinary finite number: the float division by the zero mean
yields `inf`, `-inf` or `nan`. -/
theorem variance_coefficient_zero_mean (feature : List ℚ) (hm : mean feature = 0) :
    variance_coefficient feature = .posInf ∨ variance_coefficient feature = .negInf ∨
    variance_coefficient feature = .nan := by
  unfold variance_coefficient
  by_cases h2 : feature.length < 2
  · right; right
    rw [if_pos h2]
  · rw [if_neg h2]
    unfold fdiv
    rw [hm]
    split_ifs with h h1 h3
    · exact absurd rfl h
    · exact Or.inl rfl
    · exact Or.inr (Or.inl rfl)
    · exact Or.inr (Or.inr rfl)

/-- Claim C7 witness: `[1, -1]` has mean `0` and a non-finite variance
coefficient (concretely `+inf`, since the sample variance is `2`). -/
theorem variance_coefficient_zero_mean_witness :
    mean ([1, -1] : List ℚ) = 0 ∧
    (variance_coefficient ([1, -1] : List ℚ) = .posInf ∨
     variance_coefficient ([1, -1] : List ℚ) = .negInf ∨
     variance_coefficient ([1, -1] : List ℚ) = .nan) := by
  have hm : mean ([1, -1] : List ℚ) = 0 := by norm_num [mean]
  exact ⟨hm, variance_coefficient_zero_mean _ hm⟩

/-- Claim C8: `_flatten_list` splices list/tuple elements depth-first, left
to right, appends other elements (strings count as scalars), and
`list_to_string` joins the `str()` representations of the flattened
elements with the separator (default `', '`); in particular
`list_to_string([1, [2, 3], (4, [5])]) = '1, 2, 3, 4, 5'`. -/
theorem list_to_string_spec :
    (∀ (v : PyVal) (rest : List Nested),
      flatten_list (.atom v :: rest) = v :: flatten_list rest) ∧
    (∀ (l rest : List Nested),
      flatten_list (.seq l :: rest) = flatten_list l ++ flatten_list rest) ∧
    (∀ (s : String) (rest : List Nested),
      flatten_list (.atom (.str s) :: rest) = .str s :: flatten_list rest) ∧
    (∀ (l : List Nested) (sep : String),
      list_to_string l sep = String.intercalate sep ((flatten_list l).map pyStr)) ∧
    list_to_string [.atom (.int 1), .seq [.atom (.int 2), .atom (.int 3)],
      .seq [.atom (.int 4), .seq [.atom (.int 5)]]] = "1, 2, 3, 4, 5" := by
  refine ⟨fun v rest => by simp [flatten_list], fun l rest => by simp [flatten_list],
    fun s rest => by simp [flatten_list], fun l sep => rfl, ?_⟩
  simp only [list_to_string, flatten_list]
  rfl

/-! Store lemmas for the purity claim. -/

theorem readDF_alloc_old (σ : Store) (d : DataFrame) {r : ℕ} (hr : r < σ.dfs.length) :
    readDF ⟨σ.dfs ++ [d]⟩ r = readDF σ r := by
  unfold readDF
  have hr2 : r < (σ.dfs ++ [d]).length := by
    rw [List.length_append]
    omega
  rw [List.getD_eq_getElem _ _ hr2, List.getD_eq_getElem _ _ hr,
    List.getElem_append_left hr]

theorem readDF_alloc_new (σ : Store) (d : DataFrame) :
    readDF ⟨σ.dfs ++ [d]⟩ σ.dfs.length = d := by
  unfold readDF
  have hr2 : σ.dfs.length < (σ.dfs ++ [d]).length := by
    simp
  rw [List.getD_eq_getElem _ _ hr2]
  exact List.getElem_concat_length _ _ _ rfl _

theorem readDF_write_same (σ : Store) {r : ℕ} (hr : r < σ.dfs.length) (d : DataFrame) :
    readDF (writeDF σ r d) r = d := by
  unfold readDF writeDF
  have hr2 : r < (σ.dfs.set r d).length := by
    rw [List.length_set]
    exact hr
  rw [List.getD_eq_getElem _ _ hr2]
  exact List.getElem_set_self _

theorem readDF_write_other (σ : Store) {r w : ℕ} (hne : w ≠ r) (d : DataFrame) :
    readDF (writeDF σ w d) r = readDF σ r := by
  unfold readDF writeDF
  by_cases hr : r < σ.dfs.length
  · have hr2 : r < (σ.dfs.set w d).length := by
      rw [List.length_set]
      exact hr
    rw [List.getD_eq_getElem _ _ hr2, List.getD_eq_getElem _ _ hr]
    exact List.getElem_set_ne hne _
  · rw [List.getD_eq_default, List.getD_eq_default _ _ (Nat.le_of_not_lt hr)]
    rw [List.length_set]
    exact Nat.le_of_not_lt hr

/-- Claim C9: `strip_columns` and `placehold_to_nan` return a fresh object
and never mutate the source object (the value behind the input reference is
unchanged and the returned reference is a different one, holding exactly the
transformed value), while `outlier_mask`, `trimean` and
`variance_coefficient` leave the whole store untouched. -/
theorem operations_never_mutate_input (σ : Store) (r : ℕ) (hr : r < σ.dfs.length) :
    (readDF (strip_columns_op σ r).1 r = readDF σ r ∧
     (strip_columns_op σ r).2 ≠ r ∧
     readDF (strip_columns_op σ r).1 (strip_columns_op σ r).2
       = strip_columns (readDF σ r)) ∧
    (readDF (placehold_to_nan_op σ r).1 r = readDF σ r ∧
     (placehold_to_nan_op σ r).2 ≠ r ∧
     readDF (placehold_to_nan_op σ r).1 (placehold_to_nan_op σ r).2
       = placehold_to_nan (readDF σ r)) ∧
    (∀ (τ : SeriesStore) (k : ℕ) (inclusive : Bool),
      (outlier_mask_op τ k inclusive).1 = τ) ∧
    (∀ (τ : SeriesStore) (k : ℕ), (trimean_op τ k).1 = τ) ∧
    (∀ (τ : SeriesStore) (k : ℕ), (variance_coefficient_op τ k).1 = τ) := by
  have hLr : σ.dfs.length ≠ r := Nat.ne_of_gt hr
  have hcopy : readDF ⟨σ.dfs ++ [readDF σ r]⟩ σ.dfs.length = readDF σ r :=
    readDF_alloc_new σ (readDF σ r)
  have hlen1 : σ.dfs.length < (⟨σ.dfs ++ [readDF σ r]⟩ : Store).dfs.length := by
    show σ.dfs.length < (σ.dfs ++ [readDF σ r]).length
    simp
  refine ⟨⟨?_, hLr, ?_⟩, ⟨?_, hLr, ?_⟩,
    fun τ k inclusive => rfl, fun τ k => rfl, fun τ k => rfl⟩
  · show readDF (writeDF ⟨σ.dfs ++ [readDF σ r]⟩ σ.dfs.length _) r = readDF σ r
    rw [readDF_write_other _ hLr _]
    exact readDF_alloc_old σ _ hr
  · show readDF (writeDF ⟨σ.dfs ++ [readDF σ r]⟩ σ.dfs.length
      (strip_columns (readDF ⟨σ.dfs ++ [readDF σ r]⟩ σ.dfs.length))) σ.dfs.length
      = strip_columns (readDF σ r)
    rw [readDF_write_same _ hlen1, hcopy]
  · show readDF ⟨σ.dfs ++ [placehold_to_nan (readDF σ r) PLACEHOLDERS]⟩ r = readDF σ r
    exact readDF_alloc_old σ _ hr
  · show readDF ⟨σ.dfs ++ [placehold_to_nan (readDF σ r) PLACEHOLDERS]⟩ σ.dfs.length
      = placehold_to_nan (readDF σ r) PLACEHOLDERS
    exact readDF_alloc_new σ _

/-- Claim C9 witness: on a one-object store holding a one-column frame, the
source object is unchanged by both copy-transform operations and the
read-only operations return the store as-is. -/
theorem operations_never_mutate_input_witness :
    (0 : ℕ) < (⟨[⟨[("a", ⟨Dtype.object, [Value.str " x "]⟩)]⟩]⟩ : Store).dfs.length ∧
    readDF (strip_columns_op ⟨[⟨[("a", ⟨Dtype.object, [Value.str " x "]⟩)]⟩]⟩ 0).1 0
      = ⟨[("a", ⟨Dtype.object, [Value.str " x "]⟩)]⟩ ∧
    readDF (placehold_to_nan_op ⟨[⟨[("a", ⟨Dtype.object, [Value.str " x "]⟩)]⟩]⟩ 0).1 0
      = ⟨[("a", ⟨Dtype.object, [Value.str " x "]⟩)]⟩ := by
  have h := operations_never_mutate_input ⟨[⟨[("a", ⟨Dtype.object, [Value.str " x "]⟩)]⟩]⟩ 0
    (by norm_num)
  exact ⟨by norm_num, h.1.1, h.2.1.1⟩

end Walkabout
